import Mathlib

/-!
Shallow embedding of the `bevy_signals` reactive-graph engine.

Source files embedded:
- `src/commands.rs`: the five commands (`CreateComputedCommand`, `CreateEffectCommand`,
  `CreateStateCommand`, `SendSignalCommand`, `TriggerSignalCommand`).
- `src/systems/init.rs`: the registrar pass (`subscribe_effect_subs`,
  `subscribe_propagator_subs`, `init_effects`, `init_memos`).
- `src/systems/computed.rs`: `compute_memos` (its body in the source is an unimplemented
  comment skeleton; the algorithm here is modelled from the spec, §4.3, following that
  skeleton's comments).

The cell type (`lazy_immutable` module), the `subscribe` helper, the commit pass, the
`read` API and the effect dispatcher are not present under `src/`; they are modelled
from the spec (§4.1, §4.2, §4.4, §6) and are marked as such below.

The Bevy `World` is modelled as an association list from entity ids to component
records; `get_entity` / `set_entity` mirror `World::get_entity_mut` plus component
access. Typed component lookup (`get_mut::<LazySignalsState<T>>`) is modelled by a
runtime type tag on the cell.
-/

namespace BevySignals

/-- Opaque node handle (Bevy `Entity`). -/
abbrev Entity := Nat

/-- Runtime type tag standing in for the Rust static payload type `T` of a
`LazySignalsState<T>` (the example application uses `bool`, `&'static str` and `()`). -/
inductive LSType
  | tBool
  | tStr
  | tUnit
deriving DecidableEq, Repr

/-- A payload value together with its runtime type. -/
inductive LSValue
  | vBool (b : Bool)
  | vStr (s : String)
  | vUnit
deriving DecidableEq, Repr

/-- The runtime type of a payload value. -/
def LSValue.ty : LSValue → LSType
  | .vBool _ => .tBool
  | .vStr _ => .tStr
  | .vUnit => .tUnit

/-- Propagator / signal error type (opaque here). -/
abbrev LSError := String

/-- Rust `LazySignalsResult<T> = Option<Result<T, LazySignalsError>>`: a cell's observable
value — uninitialized, a value, or an error. -/
abbrev LSResult := Option (Except LSError LSValue)

instance : DecidableEq (Except LSError LSValue) := fun a b =>
  match a, b with
  | .ok x, .ok y =>
    if h : x = y then isTrue (by rw [h])
    else isFalse (by intro hc; cases hc; exact h rfl)
  | .error x, .error y =>
    if h : x = y then isTrue (by rw [h])
    else isFalse (by intro hc; cases hc; exact h rfl)
  | .ok _, .error _ => isFalse (by intro hc; cases hc)
  | .error _, .ok _ => isFalse (by intro hc; cases hc)

/-- Modelled from the spec: the `lazy_immutable` module (struct `LazySignalsState<T>`,
trait `LazySignalsImmutable`) is not under `src/`. Fields follow spec §3 "Immutable
Cell": `data` is `current`, `next` is `pending`, `triggered` is the force flag,
`subscribers` the active subscriber set and `next_subscribers` the staged set. The
`ty` field models the Rust static type parameter `T`. -/
structure LazySignalsState where
  ty : LSType
  data : LSResult
  next : LSResult
  triggered : Bool
  subscribers : List Entity
  next_subscribers : List Entity
deriving DecidableEq, Repr

/-- Modelled from the spec: constructor `LazySignalsState::<T>::new(value)` (missing
module) — a fresh cell holding `value` as `current`, with nothing pending, the force
flag clear, and both subscriber sets empty. -/
def LazySignalsState.new (ty : LSType) (value : LSResult) : LazySignalsState :=
  { ty := ty
    data := value
    next := none
    triggered := false
    subscribers := []
    next_subscribers := [] }

/-- Modelled from the spec §4.1: `merge_next(value, force)` stages `pending = value`
and sets the force flag; it does not mutate `current`. -/
def LazySignalsState.merge_next (cell : LazySignalsState) (value : LSResult)
    (force : Bool) : LazySignalsState :=
  { cell with next := value, triggered := force }

/-- Value equality between a pending result and a current result, per spec §4.1:
errors are never considered equal to anything, including other errors. -/
def resultValueEq : Except LSError LSValue → LSResult → Bool
  | .ok v, some (.ok v') => v == v'
  | _, _ => false

/-- Modelled from the spec §4.1: `commit()`. If nothing is pending, a no-op reporting
"unchanged". Otherwise, if the pending value differs from `current` (by
`resultValueEq`) or the force flag is set, move `pending` into `current`, clear
`pending` and the force flag, and report "changed"; otherwise just clear `pending`
and the force flag and report "unchanged". -/
def LazySignalsState.commit (cell : LazySignalsState) : LazySignalsState × Bool :=
  match cell.next with
  | none => (cell, false)
  | some p =>
    if cell.triggered || !(resultValueEq p cell.data) then
      ({ cell with data := some p, next := none, triggered := false }, true)
    else
      ({ cell with next := none, triggered := false }, false)

/-- Insert into a subscriber set (sets are modelled as duplicate-free lists). -/
def addSub (l : List Entity) (e : Entity) : List Entity :=
  if e ∈ l then l else l ++ [e]

/-- Modelled from the spec §4.1/§4.8: `register_subscriber(handle)` adds to
`staged_subscribers` (`next_subscribers`), not to `subscribers` directly. -/
def LazySignalsState.register_subscriber (cell : LazySignalsState) (e : Entity) :
    LazySignalsState :=
  { cell with next_subscribers := addSub cell.next_subscribers e }

/-- Modelled from the spec §4.1: `merge_subscribers()` moves the staged subscriber
set into the active set. -/
def LazySignalsState.merge_subscribers (cell : LazySignalsState) : LazySignalsState :=
  { cell with
    subscribers := cell.next_subscribers.foldl addSub cell.subscribers
    next_subscribers := [] }

/-- Component `ComputedImmutable` from `src/framework.rs` (declaration only; the component is
used in `src/commands.rs` and `src/systems/`): the propagator function, its ordered
source list, and the result type tag (the Rust `TypeId` fields `params_type` /
`result_type` are modelled by `result_type` alone; the params type is determined by
the sources). The function maps the positional list of source values to
`Option<Result<R, Error>>`. -/
structure ComputedRecord where
  function : List LSResult → LSResult
  sources : List Entity
  result_type : LSType

/-- Component `LazyEffect` from `src/framework.rs` (declaration only): ordered source list and
trigger list. The side-effecting callback acts only on external state (spec §4.4:
effects own no cell and never feed back into the graph), so it is not part of the
state model. -/
structure LazyEffect where
  sources : List Entity
  triggers : List Entity
deriving DecidableEq, Repr

/-- The component record attached to one entity: `cell` is the
`LazySignalsState<T>` component (with its runtime type tag), `immutable_state` the
`ImmutableState` component (which in Rust stores a `ComponentId`; only its presence
matters to the embedded systems), `computed` the `ComputedImmutable` component,
`effect` the `LazyEffect` component, and the three Booleans the marker components
`RebuildSubscribers`, `SendSignal` and `ComputeMemo`. -/
structure EntityRec where
  cell : Option LazySignalsState
  immutable_state : Bool
  computed : Option ComputedRecord
  effect : Option LazyEffect
  rebuild_subscribers : Bool
  send_signal : Bool
  compute_memo : Bool

/-- The Bevy `World`, as an association list from entity id to component record. -/
abbrev World := List (Entity × EntityRec)

/-- Lookup `World::get_entity` — first record stored under the given id, if any. -/
def get_entity : World → Entity → Option EntityRec
  | [], _ => none
  | p :: t, e => if p.1 = e then some p.2 else get_entity t e

/-- Replace the record stored under the given id (no-op if the entity is absent;
entity allocation itself is external to the engine). -/
def set_entity : World → Entity → EntityRec → World
  | [], _, _ => []
  | p :: t, e, r => if p.1 = e then (e, r) :: set_entity t e r else p :: set_entity t e r

/-- Command `CreateComputedCommand::apply` (src/commands.rs, lines 99-120): inserts a fresh
uninitialized cell for the result type, the `ImmutableState` record, the
`ComputedImmutable` record and the `RebuildSubscribers` marker on the target entity.
The Rust code calls `.unwrap()` on the entity lookup, so a missing entity panics:
modelled as `none`. -/
def CreateComputedCommand.apply (computed : Entity) (function : List LSResult → LSResult)
    (sources : List Entity) (result_type : LSType) (w : World) : Option World :=
  match get_entity w computed with
  | none => none
  | some r =>
    some (set_entity w computed
      { r with
        cell := some (LazySignalsState.new result_type none)
        immutable_state := true
        computed := some
          { function := function
            sources := sources
            result_type := result_type }
        rebuild_subscribers := true })

/-- Command `CreateEffectCommand::apply` (src/commands.rs, lines 131-146): inserts the
`LazyEffect` record and the `RebuildSubscribers` marker on the target entity.
A missing entity panics (`unwrap`): modelled as `none`. -/
def CreateEffectCommand.apply (effect : Entity) (sources triggers : List Entity)
    (w : World) : Option World :=
  match get_entity w effect with
  | none => none
  | some r =>
    some (set_entity w effect
      { r with
        effect := some { sources := sources, triggers := triggers }
        rebuild_subscribers := true })

/-- Command `CreateStateCommand::apply` (src/commands.rs, lines 154-166): inserts a cell whose
`current` is `Some(Ok(data))` (via `LazySignalsState::new(Some(Ok(data)))`) and the
`ImmutableState` record. No marker is attached. A missing entity panics (`unwrap`):
modelled as `none`. -/
def CreateStateCommand.apply (state : Entity) (data : LSValue) (w : World) :
    Option World :=
  match get_entity w state with
  | none => none
  | some r =>
    some (set_entity w state
      { r with
        cell := some (LazySignalsState.new data.ty (some (.ok data)))
        immutable_state := true })

/-- Command `SendSignalCommand::apply` (src/commands.rs, lines 174-191): if the entity exists
and carries a `LazySignalsState<T>` for the payload type, `merge_next(Some(Ok(data)),
false)` and insert the `SendSignal` marker; otherwise log an error and do nothing. -/
def SendSignalCommand.apply (signal : Entity) (data : LSValue) (w : World) : World :=
  match get_entity w signal with
  | none => w
  | some r =>
    match r.cell with
    | none => w
    | some cell =>
      if cell.ty = data.ty then
        set_entity w signal
          { r with
            cell := some (cell.merge_next (some (.ok data)) false)
            send_signal := true }
      else w

/-- Command `TriggerSignalCommand::apply` (src/commands.rs, lines 199-216): same as
`SendSignalCommand::apply` but with the force flag set. -/
def TriggerSignalCommand.apply (signal : Entity) (data : LSValue) (w : World) : World :=
  match get_entity w signal with
  | none => w
  | some r =>
    match r.cell with
    | none => w
    | some cell =>
      if cell.ty = data.ty then
        set_entity w signal
          { r with
            cell := some (cell.merge_next (some (.ok data)) true)
            send_signal := true }
      else w

/-- Modelled from the spec §4.2: the `subscribe` helper (imported by
`src/systems/init.rs` from its parent module, which is not under `src/`) registers
`entity` as a subscriber on `source`'s cell via `register_subscriber`, going through
the type registry to reach the typed cell. A missing source handle, or a source with
no cell, is silently skipped. -/
def subscribe (entity source : Entity) (w : World) : World :=
  match get_entity w source with
  | none => w
  | some r =>
    match r.cell with
    | none => w
    | some cell =>
      set_entity w source { r with cell := some (cell.register_subscriber entity) }

/-- The inner loop of `subscribe_effect_subs` / `subscribe_propagator_subs`
(src/systems/init.rs, lines 22-27 and 46-51): subscribe `entity` to each handle in
its snapshot list, in order. -/
def subscribe_fold (entity : Entity) (sources : List Entity) (w : World) : World :=
  sources.foldl (fun acc source => subscribe entity source acc) w

/-- One iteration of the registrar loop (src/systems/init.rs, lines 22-30): loop
through the node's snapshot list subscribing it to each handle, then remove its
`RebuildSubscribers` marker ("mark as processed"). -/
def subs_body (acc : World) (es : Entity × List Entity) : World :=
  match get_entity (subscribe_fold es.1 es.2 acc) es.1 with
  | none => subscribe_fold es.1 es.2 acc
  | some r =>
    set_entity (subscribe_fold es.1 es.2 acc) es.1 { r with rebuild_subscribers := false }

/-- The `EntityHierarchySet` snapshot built by the registrar (src/systems/init.rs,
lines 15-20 and 39-44): for every entity matched by the query (has the relevant
component and the `RebuildSubscribers` marker), the list produced by the
`subs_closure`. -/
def hierarchy_of {α : Type} (sel : EntityRec → Option α) (closure : α → List Entity) :
    World → List (Entity × List Entity)
  | [] => []
  | p :: t =>
    match sel p.2 with
    | none => hierarchy_of sel closure t
    | some a =>
      if p.2.rebuild_subscribers then (p.1, closure a) :: hierarchy_of sel closure t
      else hierarchy_of sel closure t

/-- Common shape of `subscribe_effect_subs` and `subscribe_propagator_subs`
(src/systems/init.rs): snapshot the hierarchy from the query, then run the
subscribe-and-clear loop over it. -/
def subs_pass {α : Type} (sel : EntityRec → Option α) (closure : α → List Entity)
    (w : World) : World :=
  (hierarchy_of sel closure w).foldl subs_body w

/-- System helper `subscribe_effect_subs` (src/systems/init.rs, lines 9-31): query is
`(Entity, &LazyEffect)` filtered by `With<RebuildSubscribers>`. -/
def subscribe_effect_subs (subs_closure : LazyEffect → List Entity) (w : World) :
    World :=
  subs_pass (fun r => r.effect) subs_closure w

/-- System helper `subscribe_propagator_subs` (src/systems/init.rs, lines 33-55): query is
`(Entity, &ComputedImmutable)` filtered by `With<RebuildSubscribers>`. -/
def subscribe_propagator_subs (subs_closure : ComputedRecord → List Entity)
    (w : World) : World :=
  subs_pass (fun r => r.computed) subs_closure w

/-- System `init_effects` (src/systems/init.rs, lines 58-79): run `subscribe_effect_subs`
once over each effect's `sources`, then once over each effect's `triggers`. -/
def init_effects (w : World) : World :=
  subscribe_effect_subs (fun x => x.triggers)
    (subscribe_effect_subs (fun x => x.sources) w)

/-- System `init_memos` (src/systems/init.rs, lines 82-96): run
`subscribe_propagator_subs` once over each computed node's `sources`. -/
def init_memos (w : World) : World :=
  subscribe_propagator_subs (fun x => x.sources) w

/-- Modelled from the spec §4.3 (input) and §6 (`begin_tick`): the commit pass calls
`commit()` on every cell holding the `SendSignal` ("pending commit") marker, clears
the marker, and collects the frontier — the entities whose commit reported
"changed". The system performing this is not under `src/`. -/
def commit_signals (w : World) : World × List Entity :=
  (w.filterMap (fun p => if p.2.send_signal then some p.1 else none)).foldl
    (fun acc e =>
      match get_entity acc.1 e with
      | none => acc
      | some r =>
        match r.cell with
        | none => (set_entity acc.1 e { r with send_signal := false }, acc.2)
        | some cell =>
          (set_entity acc.1 e
            { r with cell := some cell.commit.1, send_signal := false },
           if cell.commit.2 then acc.2 ++ [e] else acc.2))
    (w, [])

/-- Modelled from the spec: §8 Scenario 1 requires a newly created computed node to
be evaluated on the tick that wires it (its cell starts uninitialized, yet `read`
must return the derived value right after init). The registrar therefore marks every
computed node still holding the `RebuildSubscribers` marker with `ComputeMemo` so
the scheduler evaluates it this tick (see the `FIXME` notes in src/systems/init.rs
about computing everything that is marked). -/
def mark_new_memos (w : World) : World :=
  w.map (fun p =>
    if p.2.computed.isSome && p.2.rebuild_subscribers then
      (p.1, { p.2 with compute_memo := true })
    else p)

/-- Modelled from the spec §4.1: `merge_subscribers()` is called once per tick on
every cell, after registration and before propagation. -/
def merge_all_subscribers (w : World) : World :=
  w.map (fun p =>
    match p.2.cell with
    | none => p
    | some cell => (p.1, { p.2 with cell := some cell.merge_subscribers }))

/-- Whether the entity is a computed node (has a `ComputedImmutable` component). -/
def isComputed (w : World) (e : Entity) : Bool :=
  ((get_entity w e).bind (fun r => r.computed)).isSome

/-- The current value of an entity's cell, as seen by an evaluator building a
positional params tuple (spec §4.3 step 3); `none` if there is no cell. -/
def readCell (w : World) (e : Entity) : LSResult :=
  match (get_entity w e).bind (fun r => r.cell) with
  | none => none
  | some cell => cell.data

/-- The active subscribers of `e`'s cell that are computed nodes (spec §4.3 steps 1
and 4: only computed subscribers continue the propagation wave). -/
def computedSubscribersOf (w : World) (e : Entity) : List Entity :=
  match (get_entity w e).bind (fun r => r.cell) with
  | none => []
  | some cell => cell.subscribers.filter (fun s => isComputed w s)

/-- Remove the `ComputeMemo` marker from an entity (src/systems/computed.rs skeleton:
"remove the ComputeMemo component"). -/
def clear_compute_memo (w : World) (e : Entity) : World :=
  match get_entity w e with
  | none => w
  | some r => set_entity w e { r with compute_memo := false }

/-- Stage an evaluation result on `e`'s cell via `merge_next(Some(result), false)`
and commit it immediately (spec §4.3 step 3: "commit immediately, so downstream
evaluators see the fresh value this same pass"), clearing the `ComputeMemo` marker.
Returns the updated world and whether the commit reported "changed". -/
def commit_cell (w : World) (e : Entity) (res : Except LSError LSValue) :
    World × Bool :=
  match get_entity w e with
  | none => (w, false)
  | some r =>
    match r.cell with
    | none => (w, false)
    | some cell =>
      (set_entity w e
        { r with
          cell := some ((cell.merge_next (some res) false).commit).1
          compute_memo := false },
       ((cell.merge_next (some res) false).commit).2)

/-- Modelled from the spec §4.3 (the body of `compute_memos` in
src/systems/computed.rs is an unimplemented comment skeleton): one step of the
work-stack topological evaluation. Arguments: remaining fuel, world, work stack,
processed set, changed set, and the trace of entities whose propagator function has
been invoked so far. Pop a node; skip it if already processed; skip (but mark
processed) if it is not a computed node (a signal or absent handle counts as
resolved); if some of its sources are unprocessed computed nodes, push them and
re-push the node; otherwise invoke its function on the positional tuple of source
values, commit any produced result immediately, mark the node processed, extend the
changed set if the commit reported "changed", and push its computed subscribers to
continue the wave. -/
def computeStep :
    Nat → World → List Entity → List Entity → List Entity → List Entity →
      World × List Entity × List Entity
  | 0, w, _, _, changed, calls => (w, changed, calls)
  | _ + 1, w, [], _, changed, calls => (w, changed, calls)
  | fuel + 1, w, e :: rest, processed, changed, calls =>
    if e ∈ processed then
      computeStep fuel w rest processed changed calls
    else
      match (get_entity w e).bind (fun r => r.computed) with
      | none => computeStep fuel w rest (e :: processed) changed calls
      | some comp =>
        if (comp.sources.filter
            (fun s => isComputed w s && !(processed.contains s))).isEmpty then
          match comp.function (comp.sources.map (readCell w)) with
          | none =>
            computeStep fuel (clear_compute_memo w e) rest (e :: processed) changed
              (e :: calls)
          | some res =>
            computeStep fuel (commit_cell w e res).1
              (if (commit_cell w e res).2 then
                computedSubscribersOf (commit_cell w e res).1 e ++ rest
              else rest)
              (e :: processed)
              (if (commit_cell w e res).2 then e :: changed else changed)
              (e :: calls)
        else
          computeStep fuel w
            ((comp.sources.filter
              (fun s => isComputed w s && !(processed.contains s))) ++ e :: rest)
            processed changed calls

/-- Modelled from the spec §4.3: `compute_memos` (src/systems/computed.rs, whose body
is a comment skeleton) — seed the work stack with every entity holding the
`ComputeMemo` marker and with every computed node directly subscribed to a frontier
cell, then run the work-stack evaluation. Returns the world, the changed set, and
the trace of propagator-function invocations. The fuel bounds the walk; it is ample
for acyclic graphs (a cyclic graph exhausts it, refusing to loop forever). -/
def compute_memos (w : World) (frontier : List Entity) :
    World × List Entity × List Entity :=
  computeStep ((w.length + frontier.length + 2) * (w.length + 2) * (w.length + 2)) w
    ((w.filterMap (fun p => if p.2.compute_memo then some p.1 else none)) ++
      frontier.foldr (fun f acc => computedSubscribersOf w f ++ acc) [])
    [] [] []

/-- Modelled from the spec §4.4: the effect dispatcher selects every effect node
with a source or trigger in the changed set, or a trigger in the original frontier.
The side-effecting invocations act only on external state (effects own no cell), so
dispatch leaves the graph state unchanged; only the selection is modelled. -/
def dispatch_effects (w : World) (changed frontier : List Entity) : List Entity :=
  w.filterMap (fun p =>
    match p.2.effect with
    | none => none
    | some eff =>
      if eff.sources.any (fun s => changed.contains s) ||
          eff.triggers.any (fun s => changed.contains s) ||
          eff.triggers.any (fun s => frontier.contains s) then
        some p.1
      else none)

/-- Modelled from the spec §6: `read<T>(handle)` — non-mutating snapshot of the
cell's `current`, provided the entity carries a cell of payload type `T`. -/
def read (ty : LSType) (e : Entity) (w : World) : LSResult :=
  match (get_entity w e).bind (fun r => r.cell) with
  | none => none
  | some cell => if cell.ty = ty then cell.data else none

/-- Modelled from the spec §6 / §2: one logical tick — commit pending sends
(producing the frontier), run the registrar (marking fresh memos for their initial
evaluation, then `init_memos` and `init_effects`), merge the staged subscriber sets,
and propagate. The effect dispatch that follows owns no cell and leaves graph state
unchanged (`dispatch_effects` above models only its selection), so the tick's
resulting graph state is the propagation output. -/
def tick (w : World) : World :=
  (compute_memos
    (merge_all_subscribers
      (init_effects (init_memos (mark_new_memos (commit_signals w).1))))
    (commit_signals w).2).1

/-- An entity record with no engine components attached (a freshly spawned entity). -/
def empty_record : EntityRec :=
  { cell := none
    immutable_state := false
    computed := none
    effect := none
    rebuild_subscribers := false
    send_signal := false
    compute_memo := false }

/-- The propagator of spec §8 Scenario 1: maps source `a` (a `bool`) to `"yes"` when
true and `"no"` otherwise. -/
def c_fn : List LSResult → LSResult
  | [some (.ok (.vBool b))] => some (.ok (.vStr (if b then "yes" else "no")))
  | _ => none

/-- Two freshly spawned entities: 0 for signal `a`, 1 for computed `c`. -/
def scenario_world0 : World := [(0, empty_record), (1, empty_record)]

/-- Scenario 1 after the creation commands: `create_state(0, false)` then
`create_computed(1, c_fn, [0])`. -/
def scenario_world1 : World :=
  ((CreateStateCommand.apply 0 (.vBool false) scenario_world0).bind
    (fun w => CreateComputedCommand.apply 1 c_fn [0] .tStr w)).getD []

/-- Scenario 1 after initialization: one tick wires and evaluates the new nodes. -/
def scenario_world2 : World := tick scenario_world1

/-- Scenario 1 after `send(a, true)` and one further full tick. -/
def scenario_world3 : World :=
  tick (SendSignalCommand.apply 0 (.vBool true) scenario_world2)

/-- A `bool` signal cell holding `false`. -/
def boolCell : LazySignalsState := LazySignalsState.new .tBool (some (.ok (.vBool false)))

/-- A unit signal cell (a trigger target). -/
def unitCell : LazySignalsState := LazySignalsState.new .tUnit (some (.ok .vUnit))

/-- A newly created effect node with `sources = [0]` and `triggers = [1]`, still
holding the `RebuildSubscribers` marker. -/
def effectRec : EntityRec :=
  { empty_record with
    effect := some { sources := [0], triggers := [1] }
    rebuild_subscribers := true }

/-- A world with two signal cells (entities 0 and 1) and the effect node above
(entity 2), right before the registrar runs. -/
def world_c1 : World :=
  [(0, { empty_record with cell := some boolCell, immutable_state := true }),
   (1, { empty_record with cell := some unitCell, immutable_state := true }),
   (2, effectRec)]

/-- A signal entity record carrying a `bool` cell. -/
def exRec : EntityRec :=
  { empty_record with cell := some boolCell, immutable_state := true }

/-- A world with a single `bool` signal at entity 0. -/
def exWorld : World := [(0, exRec)]

/-- The computed node (entity 1) of `scenario_world0` right after
`CreateComputedCommand` ran. -/
def w_cc : World :=
  (CreateComputedCommand.apply 1 c_fn [0] .tStr scenario_world0).getD []

/-- The record expected at entity 1 of `w_cc` once `init_memos` has processed it. -/
def rec_cc : EntityRec :=
  { empty_record with
    cell := some (LazySignalsState.new .tStr none)
    immutable_state := true
    computed := some { function := c_fn, sources := [0], result_type := .tStr }
    rebuild_subscribers := false }

/-- World `world_c1` after `CreateEffectCommand` re-ran on entity 2. -/
def w_ce : World := (CreateEffectCommand.apply 2 [0] [1] world_c1).getD []

/-- The record expected at entity 2 of `world_c1` once `init_effects` has processed
it. -/
def rec_ce : EntityRec :=
  { empty_record with
    effect := some { sources := [0], triggers := [1] }
    rebuild_subscribers := false }

/-- Auxiliary relation for the registrar proofs, comparing the record (if any)
stored at one entity after a registrar step with the record before it: the `effect`
and `computed` components are untouched, record presence is preserved backwards, and
the `RebuildSubscribers` marker is never newly set (it can only be cleared). -/
def FlagLe (o' o : Option EntityRec) : Prop :=
  ∀ r', o' = some r' → ∃ r, o = some r ∧ r.effect = r'.effect ∧
    r.computed = r'.computed ∧
    (r'.rebuild_subscribers = true → r.rebuild_subscribers = true)

theorem get_set_self (w : World) (e : Entity) (r r' : EntityRec)
    (h : get_entity w e = some r) : get_entity (set_entity w e r') e = some r' := by
  induction w with
  | nil => simp [get_entity] at h
  | cons p t ih =>
    by_cases hp : p.1 = e
    · simp [set_entity, hp, get_entity]
    · simp only [get_entity, if_neg hp] at h
      simp [set_entity, hp, get_entity, ih h]

theorem get_set_ne (w : World) (e e' : Entity) (r' : EntityRec) (h : e' ≠ e) :
    get_entity (set_entity w e r') e' = get_entity w e' := by
  induction w with
  | nil => simp [set_entity]
  | cons p t ih =>
    by_cases hp : p.1 = e
    · have h1 : e ≠ e' := fun hc => h hc.symm
      have h2 : p.1 ≠ e' := by rw [hp]; exact h1
      simp [set_entity, hp, get_entity, h1, h2, ih]
    · simp only [set_entity, if_neg hp]
      by_cases hq : p.1 = e'
      · simp [get_entity, hq]
      · simp [get_entity, hq, ih]

/-- C4: for every existing signal entity carrying a typed cell of the sent payload
type, `send_signal` stages `pending = Ok(value)` with the force flag false, leaves
the cell's current value untouched, and inserts the `SendSignal` marker. -/
theorem C4_send_stages_pending (w : World) (signal : Entity) (data : LSValue)
    (r : EntityRec) (cell : LazySignalsState)
    (h1 : get_entity w signal = some r) (h2 : r.cell = some cell)
    (h3 : cell.ty = data.ty) :
    get_entity (SendSignalCommand.apply signal data w) signal =
      some { r with
             cell := some { cell with next := some (.ok data), triggered := false }
             send_signal := true } := by
  unfold SendSignalCommand.apply
  rw [h1]
  simp only [h2, if_pos h3]
  exact get_set_self w signal r _ h1

/-- Closed instance of `C4_send_stages_pending` at a concrete world. -/
theorem C4_witness :
    get_entity exWorld 0 = some exRec ∧ exRec.cell = some boolCell ∧
    boolCell.ty = (LSValue.vBool true).ty ∧
    get_entity (SendSignalCommand.apply 0 (.vBool true) exWorld) 0 =
      some { exRec with
             cell := some { boolCell with
                            next := some (.ok (.vBool true))
                            triggered := false }
             send_signal := true } :=
  ⟨rfl, rfl, rfl, C4_send_stages_pending exWorld 0 (.vBool true) exRec boolCell rfl rfl rfl⟩

/-- C5: for every existing signal entity carrying a typed cell of the sent payload
type, `trigger_signal` stages `pending = Ok(value)` with the force flag true (so the
commit treats it as changed even when value-equal to current) and inserts the
`SendSignal` marker. -/
theorem C5_trigger_stages_forced (w : World) (signal : Entity) (data : LSValue)
    (r : EntityRec) (cell : LazySignalsState)
    (h1 : get_entity w signal = some r) (h2 : r.cell = some cell)
    (h3 : cell.ty = data.ty) :
    get_entity (TriggerSignalCommand.apply signal data w) signal =
      some { r with
             cell := some { cell with next := some (.ok data), triggered := true }
             send_signal := true } := by
  unfold TriggerSignalCommand.apply
  rw [h1]
  simp only [h2, if_pos h3]
  exact get_set_self w signal r _ h1

/-- Closed instance of `C5_trigger_stages_forced` at a concrete world, together with
the forced-commit consequence: the staged cell commits as "changed" even though the
sent value equals the current value. -/
theorem C5_witness :
    get_entity exWorld 0 = some exRec ∧ exRec.cell = some boolCell ∧
    boolCell.ty = (LSValue.vBool false).ty ∧
    get_entity (TriggerSignalCommand.apply 0 (.vBool false) exWorld) 0 =
      some { exRec with
             cell := some { boolCell with
                            next := some (.ok (.vBool false))
                            triggered := true }
             send_signal := true } ∧
    ({ boolCell with
       next := some (.ok (.vBool false))
       triggered := true } : LazySignalsState).commit.2 = true :=
  ⟨rfl, rfl, rfl,
   C5_trigger_stages_forced exWorld 0 (.vBool false) exRec boolCell rfl rfl rfl,
   by decide⟩

/-- C6: for every handle that does not exist in the node store, `send` and `trigger`
are logged no-ops — the world is left completely unchanged. -/
theorem C6_missing_handle_noop (w : World) (signal : Entity) (data : LSValue)
    (h : get_entity w signal = none) :
    SendSignalCommand.apply signal data w = w ∧
    TriggerSignalCommand.apply signal data w = w := by
  constructor
  · unfold SendSignalCommand.apply
    rw [h]
  · unfold TriggerSignalCommand.apply
    rw [h]

/-- Closed instance of `C6_missing_handle_noop`: entity 5 is absent. -/
theorem C6_witness :
    get_entity exWorld 5 = none ∧
    SendSignalCommand.apply 5 (.vBool true) exWorld = exWorld ∧
    TriggerSignalCommand.apply 5 (.vBool true) exWorld = exWorld := by
  refine ⟨rfl, ?_⟩
  exact C6_missing_handle_noop exWorld 5 (.vBool true) rfl

/-- C9: for every existing entity that lacks a typed cell of the sent payload type
(no cell at all, or a cell of a different payload type), `send_signal` and
`trigger_signal` leave the world completely unchanged — in particular no `SendSignal`
marker is ever inserted without a pending value staged on the same entity. -/
theorem C9_wrong_cell_noop (w : World) (signal : Entity) (data : LSValue)
    (r : EntityRec) (h1 : get_entity w signal = some r)
    (h2 : ∀ cell, r.cell = some cell → cell.ty ≠ data.ty) :
    SendSignalCommand.apply signal data w = w ∧
    TriggerSignalCommand.apply signal data w = w := by
  constructor
  · unfold SendSignalCommand.apply
    split
    · rfl
    rename_i rr heq
    split
    · rfl
    rename_i cell heq2
    rw [heq] at h1
    rw [(Option.some.inj h1).symm] at h2
    exact if_neg (h2 cell heq2)
  · unfold TriggerSignalCommand.apply
    split
    · rfl
    rename_i rr heq
    split
    · rfl
    rename_i cell heq2
    rw [heq] at h1
    rw [(Option.some.inj h1).symm] at h2
    exact if_neg (h2 cell heq2)

/-- Closed instance of `C9_wrong_cell_noop`: entity 0 carries a `bool` cell and a
unit payload is sent. -/
theorem C9_witness :
    get_entity exWorld 0 = some exRec ∧
    (∀ cell, exRec.cell = some cell → cell.ty ≠ LSValue.vUnit.ty) ∧
    SendSignalCommand.apply 0 .vUnit exWorld = exWorld ∧
    TriggerSignalCommand.apply 0 .vUnit exWorld = exWorld := by
  have h2 : ∀ cell, exRec.cell = some cell → cell.ty ≠ LSValue.vUnit.ty := by
    intro cell hc
    have : boolCell = cell := by
      have hx : exRec.cell = some boolCell := rfl
      rw [hx] at hc
      exact Option.some.inj hc
    rw [← this]
    decide
  exact ⟨rfl, h2, C9_wrong_cell_noop exWorld 0 .vUnit exRec rfl h2⟩

/-- C10: unlike send and trigger, the creation commands are not total on missing
handles — `CreateComputedCommand`, `CreateEffectCommand` and `CreateStateCommand`
panic (modelled by `none`) when the target entity does not exist, instead of
degrading to a logged no-op. -/
theorem C10_create_panics_on_missing (w : World) (e : Entity)
    (function : List LSResult → LSResult) (sources triggers : List Entity)
    (ty : LSType) (data : LSValue) (h : get_entity w e = none) :
    CreateComputedCommand.apply e function sources ty w = none ∧
    CreateEffectCommand.apply e sources triggers w = none ∧
    CreateStateCommand.apply e data w = none := by
  refine ⟨?_, ?_, ?_⟩
  · unfold CreateComputedCommand.apply
    rw [h]
  · unfold CreateEffectCommand.apply
    rw [h]
  · unfold CreateStateCommand.apply
    rw [h]

/-- Closed instance of `C10_create_panics_on_missing`: entity 7 is absent. -/
theorem C10_witness :
    get_entity exWorld 7 = none ∧
    CreateComputedCommand.apply 7 c_fn [0] .tStr exWorld = none ∧
    CreateEffectCommand.apply 7 [0] [] exWorld = none ∧
    CreateStateCommand.apply 7 (.vBool true) exWorld = none := by
  refine ⟨rfl, ?_⟩
  exact C10_create_panics_on_missing exWorld 7 c_fn [0] [] .tStr (.vBool true) rfl

/-- C8: for every existing target entity, `create_state` sets the cell's current
value directly to `Ok(initial)` at command application time (nothing staged as
pending, force flag clear) and attaches no rebuild marker (the marker flag is
whatever it was before), so the fresh signal is readable with its initial value
before any tick runs. -/
theorem C8_create_state_sets_current (w : World) (state : Entity) (data : LSValue)
    (r : EntityRec) (h : get_entity w state = some r) :
    ∃ w', CreateStateCommand.apply state data w = some w' ∧
      get_entity w' state = some
        { r with
          cell := some
            { ty := data.ty
              data := some (.ok data)
              next := none
              triggered := false
              subscribers := []
              next_subscribers := [] }
          immutable_state := true } ∧
      read data.ty state w' = some (.ok data) := by
  refine ⟨set_entity w state
    { r with
      cell := some (LazySignalsState.new data.ty (some (.ok data)))
      immutable_state := true }, ?_, ?_, ?_⟩
  · unfold CreateStateCommand.apply
    rw [h]
  · exact get_set_self w state r _ h
  · unfold read
    rw [get_set_self w state r _ h]
    simp [LazySignalsState.new]

/-- Closed instance of `C8_create_state_sets_current` at a fresh entity. -/
theorem C8_witness :
    get_entity scenario_world0 0 = some empty_record ∧
    (∃ w', CreateStateCommand.apply 0 (.vBool false) scenario_world0 = some w' ∧
      get_entity w' 0 = some
        { empty_record with
          cell := some
            { ty := (LSValue.vBool false).ty
              data := some (.ok (.vBool false))
              next := none
              triggered := false
              subscribers := []
              next_subscribers := [] }
          immutable_state := true } ∧
      read (LSValue.vBool false).ty 0 w' = some (.ok (.vBool false))) :=
  ⟨rfl, C8_create_state_sets_current scenario_world0 0 (.vBool false) empty_record rfl⟩

theorem flagle_refl (o : Option EntityRec) : FlagLe o o :=
  fun r' h => ⟨r', h, rfl, rfl, fun hh => hh⟩

theorem flagle_trans {o₁ o₂ o₃ : Option EntityRec} (h1 : FlagLe o₁ o₂)
    (h2 : FlagLe o₂ o₃) : FlagLe o₁ o₃ := by
  intro r' h
  obtain ⟨r, hr, he, hc, hb⟩ := h1 r' h
  obtain ⟨q, hq, he2, hc2, hb2⟩ := h2 r hr
  exact ⟨q, hq, he2.trans he, hc2.trans hc, fun hh => hb2 (hb hh)⟩

theorem flagle_subscribe (a s : Entity) (w : World) (e : Entity) :
    FlagLe (get_entity (subscribe a s w) e) (get_entity w e) := by
  unfold subscribe
  split
  · exact flagle_refl _
  rename_i r heq
  split
  · exact flagle_refl _
  rename_i cell hcell
  by_cases he : e = s
  · subst he
    rw [get_set_self w e r _ heq]
    intro r' h'
    cases Option.some.inj h'
    exact ⟨r, heq, rfl, rfl, fun hh => hh⟩
  · rw [get_set_ne w s e _ he]
    exact flagle_refl _

theorem flagle_subscribe_fold (a : Entity) (l : List Entity) (w : World) (e : Entity) :
    FlagLe (get_entity (subscribe_fold a l w) e) (get_entity w e) := by
  induction l generalizing w with
  | nil => exact flagle_refl _
  | cons s t ih =>
    unfold subscribe_fold
    simp only [List.foldl_cons]
    exact flagle_trans (ih (subscribe a s w)) (flagle_subscribe a s w e)

theorem flagle_subs_body (acc : World) (es : Entity × List Entity) (e : Entity) :
    FlagLe (get_entity (subs_body acc es) e) (get_entity acc e) := by
  unfold subs_body
  split
  · exact flagle_subscribe_fold es.1 es.2 acc e
  rename_i r heq
  by_cases he : e = es.1
  · rw [he, get_set_self _ es.1 r _ heq]
    intro r' h'
    cases Option.some.inj h'
    obtain ⟨q, hq, h1, h2, h3⟩ := flagle_subscribe_fold es.1 es.2 acc es.1 r heq
    exact ⟨q, hq, h1, h2, fun hh => nomatch hh⟩
  · rw [get_set_ne _ es.1 e _ he]
    exact flagle_subscribe_fold es.1 es.2 acc e

theorem flagle_fold_body (hier : List (Entity × List Entity)) (acc : World)
    (e : Entity) :
    FlagLe (get_entity (hier.foldl subs_body acc) e) (get_entity acc e) := by
  induction hier generalizing acc with
  | nil => exact flagle_refl _
  | cons es t ih =>
    simp only [List.foldl_cons]
    exact flagle_trans (ih (subs_body acc es)) (flagle_subs_body acc es e)

theorem flagle_subs_pass {α : Type} (sel : EntityRec → Option α)
    (closure : α → List Entity) (w : World) (e : Entity) :
    FlagLe (get_entity (subs_pass sel closure w) e) (get_entity w e) :=
  flagle_fold_body (hierarchy_of sel closure w) w e

theorem hierarchy_complete {α : Type} (sel : EntityRec → Option α)
    (closure : α → List Entity) (w : World) (e : Entity) (r : EntityRec)
    (h : get_entity w e = some r) (hs : (sel r).isSome)
    (hb : r.rebuild_subscribers = true) :
    e ∈ (hierarchy_of sel closure w).map Prod.fst := by
  induction w with
  | nil => simp [get_entity] at h
  | cons p t ih =>
    by_cases hp : p.1 = e
    · have hpr : p.2 = r := by
        simp only [get_entity, if_pos hp] at h
        exact Option.some.inj h
      obtain ⟨a, ha⟩ := Option.isSome_iff_exists.mp hs
      unfold hierarchy_of
      rw [hpr, ha]
      simp [hb, hp]
    · have h' : get_entity t e = some r := by
        simpa only [get_entity, if_neg hp] using h
      have ih' := ih h'
      unfold hierarchy_of
      cases hsp : sel p.2 with
      | none => exact ih'
      | some a =>
        by_cases hrb : p.2.rebuild_subscribers
        · simp only [if_pos hrb, List.map_cons, List.mem_cons]
          exact Or.inr ih'
        · simp only [if_neg hrb]
          exact ih'

theorem subs_fold_clears {α : Type} (sel : EntityRec → Option α)
    (hsel : ∀ r₀ r₁ : EntityRec, r₀.effect = r₁.effect →
      r₀.computed = r₁.computed → (sel r₁).isSome → (sel r₀).isSome) :
    ∀ (hier : List (Entity × List Entity)) (acc : World),
      (∀ e r, get_entity acc e = some r → (sel r).isSome →
        r.rebuild_subscribers = true → e ∈ hier.map Prod.fst) →
      ∀ e r, get_entity (hier.foldl subs_body acc) e = some r → (sel r).isSome →
        r.rebuild_subscribers = false := by
  intro hier
  induction hier with
  | nil =>
    intro acc hpre e r h hs
    cases hrb : r.rebuild_subscribers
    · rfl
    · have := hpre e r (by simpa using h) hs hrb
      simp at this
  | cons es t ih =>
    intro acc hpre e r h hs
    refine ih (subs_body acc es) ?_ e r (by simpa using h) hs
    intro e' r' h' hs' hrb'
    obtain ⟨q, hq, hqe, hqc, hqb⟩ := flagle_subs_body acc es e' r' h'
    have hqs : (sel q).isSome := hsel q r' hqe hqc hs'
    have hmem := hpre e' q hq hqs (hqb hrb')
    simp only [List.map_cons, List.mem_cons] at hmem
    rcases hmem with h1 | h2
    · exfalso
      subst h1
      unfold subs_body at h'
      split at h'
      · rename_i heq
        rw [heq] at h'
        exact Option.noConfusion h'
      · rename_i rr heq
        rw [get_set_self _ _ rr _ heq] at h'
        rw [← Option.some.inj h'] at hrb'
        simp at hrb'
    · exact h2

theorem subs_pass_clears {α : Type} (sel : EntityRec → Option α)
    (closure : α → List Entity)
    (hsel : ∀ r₀ r₁ : EntityRec, r₀.effect = r₁.effect →
      r₀.computed = r₁.computed → (sel r₁).isSome → (sel r₀).isSome)
    (w : World) :
    ∀ e r, get_entity (subs_pass sel closure w) e = some r → (sel r).isSome →
      r.rebuild_subscribers = false :=
  subs_fold_clears sel hsel (hierarchy_of sel closure w) w
    (fun e r h hs hb => hierarchy_complete sel closure w e r h hs hb)

/-- C7: every `create_computed` and `create_effect` command sets the
`RebuildSubscribers` marker on the created node, and the registrar pass clears the
marker from each node it processes — after `init_memos` no computed node still
carries it, and after `init_effects` no effect node still carries it. -/
theorem C7_rebuild_marker_lifecycle :
    (∀ (w : World) (e : Entity) (function : List LSResult → LSResult)
      (sources : List Entity) (ty : LSType) (w' : World),
      CreateComputedCommand.apply e function sources ty w = some w' →
      ∃ r, get_entity w' e = some r ∧ r.rebuild_subscribers = true) ∧
    (∀ (w : World) (e : Entity) (sources triggers : List Entity) (w' : World),
      CreateEffectCommand.apply e sources triggers w = some w' →
      ∃ r, get_entity w' e = some r ∧ r.rebuild_subscribers = true) ∧
    (∀ (w : World) (e : Entity) (r : EntityRec),
      get_entity (init_memos w) e = some r → r.computed.isSome = true →
      r.rebuild_subscribers = false) ∧
    (∀ (w : World) (e : Entity) (r : EntityRec),
      get_entity (init_effects w) e = some r → r.effect.isSome = true →
      r.rebuild_subscribers = false) := by
  refine ⟨?_, ?_, ?_, ?_⟩
  · intro w e function sources ty w' h
    unfold CreateComputedCommand.apply at h
    split at h
    · exact Option.noConfusion h
    rename_i r heq
    rw [← Option.some.inj h]
    exact ⟨_, get_set_self w e r _ heq, rfl⟩
  · intro w e sources triggers w' h
    unfold CreateEffectCommand.apply at h
    split at h
    · exact Option.noConfusion h
    rename_i r heq
    rw [← Option.some.inj h]
    exact ⟨_, get_set_self w e r _ heq, rfl⟩
  · intro w e r h hs
    exact subs_pass_clears (fun q => q.computed) (fun x => x.sources)
      (fun r₀ r₁ he hc hq => by
        show r₀.computed.isSome = true
        rw [hc]
        exact hq) w e r h hs
  · intro w e r h hs
    unfold init_effects at h
    cases hrb : r.rebuild_subscribers
    · rfl
    · exfalso
      obtain ⟨q, hq, hqe, hqc, hqb⟩ :=
        flagle_subs_pass (fun q => q.effect) (fun x => x.triggers) _ e r h
      have hqs : q.effect.isSome = true := by rw [hqe]; exact hs
      have hclear := subs_pass_clears (fun q => q.effect) (fun x => x.sources)
        (fun r₀ r₁ he hc hx => by
          show r₀.effect.isSome = true
          rw [he]
          exact hx) w e q hq hqs
      rw [hclear] at hqb
      exact Bool.noConfusion (hqb hrb)

/-- Closed instance of `C7_rebuild_marker_lifecycle`: a computed node and an effect
node get the marker at creation, and `init_memos` / `init_effects` clear it. -/
theorem C7_witness :
    CreateComputedCommand.apply 1 c_fn [0] .tStr scenario_world0 = some w_cc ∧
    (∃ r, get_entity w_cc 1 = some r ∧ r.rebuild_subscribers = true) ∧
    CreateEffectCommand.apply 2 [0] [1] world_c1 = some w_ce ∧
    (∃ r, get_entity w_ce 2 = some r ∧ r.rebuild_subscribers = true) ∧
    (get_entity (init_memos w_cc) 1 = some rec_cc ∧ rec_cc.computed.isSome = true ∧
      rec_cc.rebuild_subscribers = false) ∧
    (get_entity (init_effects world_c1) 2 = some rec_ce ∧
      rec_ce.effect.isSome = true ∧ rec_ce.rebuild_subscribers = false) :=
  ⟨rfl,
   C7_rebuild_marker_lifecycle.1 scenario_world0 1 c_fn [0] .tStr w_cc rfl,
   rfl,
   C7_rebuild_marker_lifecycle.2.1 world_c1 2 [0] [1] w_ce rfl,
   ⟨rfl, rfl, C7_rebuild_marker_lifecycle.2.2.1 w_cc 1 rec_cc rfl rfl⟩,
   ⟨rfl, rfl, C7_rebuild_marker_lifecycle.2.2.2 world_c1 2 rec_ce rfl rfl⟩⟩

/-- C1 (divergence witness): in `world_c1` the effect (entity 2, sources `[0]`,
triggers `[1]`) is, after `init_effects`, registered as a staged subscriber on its
source's cell but NOT on its trigger's cell, and its `RebuildSubscribers` marker is
already cleared: the first `subscribe_effect_subs` pass (over `sources`) removes the
marker, so the second pass (over `triggers`) queries `With<RebuildSubscribers>` and
matches nothing. The claim (and spec §4.2) requires registration on every handle in
both lists before the marker clears. -/
theorem C1_trigger_registration_skipped :
    ((get_entity (init_effects world_c1) 0).bind (fun r => r.cell)).map
      (fun c => c.next_subscribers) = some [2] ∧
    ((get_entity (init_effects world_c1) 1).bind (fun r => r.cell)).map
      (fun c => c.next_subscribers) = some [] ∧
    (get_entity (init_effects world_c1) 2).map (fun r => r.rebuild_subscribers) =
      some false := by
  decide

theorem computeStep_calls_nodup :
    ∀ (fuel : Nat) (w : World) (stack processed changed calls : List Entity),
      calls.Nodup → (∀ x ∈ calls, x ∈ processed) →
      ((computeStep fuel w stack processed changed calls).2.2).Nodup := by
  intro fuel
  induction fuel with
  | zero =>
    intro w stack processed changed calls h1 _
    simpa [computeStep] using h1
  | succ fuel ih =>
    intro w stack processed changed calls h1 h2
    cases stack with
    | nil => simpa [computeStep] using h1
    | cons e rest =>
      simp only [computeStep]
      by_cases hmem : e ∈ processed
      · rw [if_pos hmem]
        exact ih w rest processed changed calls h1 h2
      · rw [if_neg hmem]
        have hsub : ∀ x ∈ calls, x ∈ e :: processed :=
          fun x hx => List.mem_cons_of_mem _ (h2 x hx)
        have hnotin : e ∉ calls := fun hin => hmem (h2 e hin)
        have hcons : (e :: calls).Nodup := List.nodup_cons.mpr ⟨hnotin, h1⟩
        have hsub2 : ∀ x ∈ e :: calls, x ∈ e :: processed := by
          intro x hx
          rcases List.mem_cons.mp hx with hx | hx
          · rw [hx]; exact List.mem_cons_self _ _
          · exact List.mem_cons_of_mem _ (h2 x hx)
        split
        · exact ih _ rest (e :: processed) changed calls h1 hsub
        split
        · split
          · exact ih _ rest (e :: processed) changed (e :: calls) hcons hsub2
          · exact ih _ _ (e :: processed) _ (e :: calls) hcons hsub2
        · exact ih _ _ processed changed calls h1 h2

/-- C3: during a single propagation pass (one call to `compute_memos`), each
computed node's function is invoked at most once, for every graph and every
frontier — the invocation trace contains no entity twice. -/
theorem C3_function_invoked_at_most_once (w : World) (frontier : List Entity)
    (e : Entity) : ((compute_memos w frontier).2.2).count e ≤ 1 :=
  List.nodup_iff_count_le_one.mp
    (computeStep_calls_nodup _ w _ [] [] [] List.nodup_nil (by intro x hx; simp at hx))
    e

/-- C2 (spec §8 Scenario 1): signal `a` (entity 0, bool, initial false) and computed
`c` (entity 1, `if a then "yes" else "no"`, source `[0]`): after initialization
`read(c) = Some(Ok("no"))`, and after `send(a, true)` followed by one full tick
(commit, registrar, propagate, dispatch) `read(c) = Some(Ok("yes"))`. -/
theorem C2_scenario_basic :
    read .tStr 1 scenario_world2 = some (.ok (.vStr "no")) ∧
    read .tStr 1 scenario_world3 = some (.ok (.vStr "yes")) := by
  constructor
  · decide
  · decide

end BevySignals
